import Mathlib

/-!
Verification of the `obsidize-api-guard-generator` core transformation
(`src/core.ts`) against its design specification.

The TypeScript compiler API (`ts.createSourceFile`, `ts.createPrinter`) is an
external capability per the spec (§1, §6): "parse text → tree; print tree →
text" is supplied by a collaborator and is not part of the core.  We therefore
embed the syntax tree shallowly: a parsed unit is a list of top-level nodes,
and every text that the core reads off a node through the compiler API
(`getText`, `getFullText`, `escapedText`) is carried as a field of the node,
exactly as the parser would hand it over.  The parse capability itself is a
parameter `(fileName, text) → nodes`; the print capability
(`ts.createPrinter().printFile` applied to the re-parsed unit) re-emits the
tree with its own formatting and is likewise a parameter, a function of the
unit's text.
-/

namespace ApiGuard

/-- The node kinds that `core.ts` dispatches on (`ts.SyntaxKind`); every other
kind is collapsed into `Other`. -/
inductive SyntaxKind where
  | ClassDeclaration
  | Identifier
  | MethodDeclaration
  | Parameter
  | Other
deriving DecidableEq, Repr

/-- A name node as the parser delivers it: its kind and its `escapedText`. -/
structure NameNode where
  kind : SyntaxKind
  escapedText : String
deriving DecidableEq, Repr

/-- One formal parameter node (`ts.ParameterDeclaration`).
`nameText` is `parameter.name.getText(sourceFile)` (for a destructuring
pattern this is the pattern's source text, not an identifier);
`typeFullText` is `parameter.type?.getFullText(sourceFile)`, which includes
the leading trivia of the type node (typically the space after the colon).
`isSimpleNamed` records whether the name node is a plain identifier; the
generator itself never consults it, it is kept to state spec claims about
"simple named parameters". -/
structure ParameterNode where
  kind : SyntaxKind
  nameText : String
  typeFullText : Option String
  isSimpleNamed : Bool
deriving DecidableEq, Repr

/-- One class member node (`ts.ClassElement`).  `nameText` is
`name.getText(sourceFile)`, `typeFullText` is `type?.getFullText(sourceFile)`
(the annotated return type, with leading trivia).  `headText` is the original
source text of the member's declaration head (name through return type); the
generator never reads it, it is kept to state spec claims about textual
fidelity to the source. -/
structure ClassElementNode where
  kind : SyntaxKind
  nameText : String
  parameters : List ParameterNode
  typeFullText : Option String
  headText : String
deriving DecidableEq, Repr

/-- One top-level node of a parsed unit (a direct child visited by
`sourceFile.forEachChild`). -/
structure TopLevelNode where
  kind : SyntaxKind
  name : Option NameNode
  members : List ClassElementNode
deriving DecidableEq, Repr

/-- `GenerateOptions` from `core.ts`; the two file names are optional. -/
structure GenerateOptions where
  inputFileText : String
  inputFileTargetClass : String
  inputFileName : Option String := none
  outputFileName : Option String := none
deriving DecidableEq, Repr

/-- `MethodArgumentMetadata` from `core.ts`. -/
structure MethodArgumentMetadata where
  name : String
  type : String
deriving DecidableEq, Repr

/-- `MethodDeclarationMetadata` from `core.ts`. -/
structure MethodDeclarationMetadata where
  name : String
  declarationText : String
  returnType : String
  args : List MethodArgumentMetadata
deriving DecidableEq, Repr

/-- The result of `ts.createSourceFile(outFileName, sourceFileText, ...)` as
far as the core observes it: the unit's file name and its full text. -/
structure GeneratedSourceFile where
  fileName : String
  text : String
deriving DecidableEq, Repr

/-- `isClassDeclarationWithIdentifier` from `core.ts`: the node must be a
class declaration whose name node is an identifier with `escapedText`
equal (case-sensitively) to the target name. -/
def isClassDeclarationWithIdentifier (node : TopLevelNode) (targetClassName : String) : Bool :=
  if node.kind ≠ SyntaxKind.ClassDeclaration then false
  else
    match node.name with
    | none => false
    | some className =>
      if className.kind ≠ SyntaxKind.Identifier then false
      else className.escapedText = targetClassName

/-- `findClassNodeByName` from `core.ts`: `forEachChild` with a result latch
keeps the first matching top-level node. -/
def findClassNodeByName (topLevelNodes : List TopLevelNode) (targetClassName : String) :
    Option TopLevelNode :=
  topLevelNodes.find? (fun node => isClassDeclarationWithIdentifier node targetClassName)

/-- A character matched by an (un-flagged) JavaScript regex `.`: anything but
a line terminator. -/
def isRegexDot (c : Char) : Bool :=
  c ≠ '\n' && c ≠ '\r' && c ≠ '\u2028' && c ≠ '\u2029'

/-- A character matched by the negated class `[^\x5b|\x5d]` of the two
queue-pattern regexes: anything but `[`, `|`, `]`. -/
def isQueueTailChar (c : Char) : Bool :=
  c ≠ '[' && c ≠ '|' && c ≠ ']'

/-- Matcher for the regex fragment `[^\x5b|\x5d]*$`. -/
def queueTail (s : List Char) : Bool :=
  s.all isQueueTailChar

/-- Matcher for the regex fragment `.*>[^\x5b|\x5d]*$` where the leading
`.*` is the continuation of an enclosing `.+`: either the next character is
the closing `>` and the rest is the tail class, or it is a `.`-character and
we keep scanning for the `>`. -/
def gtThenTail : List Char → Bool
  | [] => false
  | c :: rest => (c = '>' && queueTail rest) || (isRegexDot c && gtThenTail rest)

/-- Matcher for the regex fragment `.+>[^\x5b|\x5d]*$`: at least one
`.`-character, then a `>`, then only tail-class characters. -/
def plusGtTail : List Char → Bool
  | [] => false
  | c :: rest => isRegexDot c && gtThenTail rest

/-- Matcher for `^.*LIT.+>[^\x5b|\x5d]*$` against a whole string, where
`LIT` is a literal (here `Observable<` or `Promise<`): try the literal at
the current position, or consume one `.`-character and retry further right. -/
def dotStarLit (lit : List Char) : List Char → Bool
  | [] => lit.isPrefixOf [] && plusGtTail (List.drop lit.length [])
  | c :: rest =>
    (lit.isPrefixOf (c :: rest) && plusGtTail (List.drop lit.length (c :: rest))) ||
      (isRegexDot c && dotStarLit lit rest)

/-- `RegExp.test` for the pattern `^.*NAME<.+>[^\x5b|\x5d]*$`. -/
def testQueuePattern (genericName : String) (returnType : String) : Bool :=
  dotStarLit (genericName ++ "<").data returnType.data

/-- `getQueueMethodForReturnType` from `core.ts`: the `Observable` pattern is
tried first and selects `observe`; otherwise the `Promise` pattern selects
`add`; otherwise no queue method is used. -/
def getQueueMethodForReturnType (returnType : String) : Option String :=
  if testQueuePattern "Observable" returnType then some "observe"
  else if testQueuePattern "Promise" returnType then some "add"
  else none

/-- `Array.prototype.join(sep)` on a list of strings. -/
def joinSep (sep : String) : List String → String
  | [] => ""
  | [s] => s
  | s :: rest => s ++ sep ++ joinSep sep rest

/-- `generateClassInterfaceMethods` from `core.ts`. -/
def generateClassInterfaceMethods (methods : List MethodDeclarationMetadata) (indent : String) :
    String :=
  joinSep "\n" (methods.map (fun m => indent ++ m.declarationText ++ ";"))

/-- `generateClassGuardMethod` from `core.ts`.  The JS conditional
`queueMethod ? ... : ...` distinguishes a present queue method (always the
non-empty string `observe` or `add`, hence truthy) from `undefined`. -/
def generateClassGuardMethod (method : MethodDeclarationMetadata) (sourceRefName : String)
    (indent : String) : String :=
  let queueMethod := getQueueMethodForReturnType method.returnType
  let methodArgs := joinSep ", " (method.args.map MethodArgumentMetadata.name)
  let sourceCall := "this." ++ sourceRefName ++ "." ++ method.name ++ "(" ++ methodArgs ++ ")"
  let returnStatement :=
    match queueMethod with
    | some q => "this.queue." ++ q ++ "(() => " ++ sourceCall ++ ")"
    | none => sourceCall
  indent ++ method.declarationText ++ " \x7b\n" ++ indent ++ "\treturn " ++ returnStatement ++
    ";\n" ++ indent ++ "\x7d"

/-- `generateClassGuardMethodList` from `core.ts`. -/
def generateClassGuardMethodList (methods : List MethodDeclarationMetadata)
    (sourceRefName : String) (indent : String) : String :=
  joinSep "\n" (methods.map (fun m => generateClassGuardMethod m sourceRefName indent))

/-- `parseMethodArgumentDeclarationMetadata` from `core.ts`: a node that is
not of kind `Parameter` yields `null`; otherwise the argument's name is the
name node's source text and its type is the type node's full text, or the
empty string when there is no annotation. -/
def parseMethodArgumentDeclarationMetadata (parameter : ParameterNode) :
    Option MethodArgumentMetadata :=
  if parameter.kind ≠ SyntaxKind.Parameter then none
  else some { name := parameter.nameText, type := parameter.typeFullText.getD "" }

/-- `parseMethodDeclarationMetadata` from `core.ts`.  The JS
`.map(...!).filter(v => v)` over the parameters is a `filterMap`; the return
type defaults to `any` when no annotation exists. -/
def parseMethodDeclarationMetadata (memberNode : ClassElementNode) :
    Option MethodDeclarationMetadata :=
  if memberNode.kind ≠ SyntaxKind.MethodDeclaration then none
  else
    let name := memberNode.nameText
    let args := memberNode.parameters.filterMap parseMethodArgumentDeclarationMetadata
    let returnType := memberNode.typeFullText.getD "any"
    let typedArgumentList := joinSep ", " (args.map (fun a => a.name ++ ": " ++ a.type))
    let declarationText := name ++ "(" ++ typedArgumentList ++ "): " ++ returnType
    some { name := name, declarationText := declarationText, returnType := returnType,
           args := args }

/-- `parseMethodDeclarationMetadataList` from `core.ts`. -/
def parseMethodDeclarationMetadataList (members : List ClassElementNode) :
    List MethodDeclarationMetadata :=
  members.filterMap parseMethodDeclarationMetadata

/-- The class name the emitter reads off the located class:
`sourceClass.name!.escapedText` (the call site guarantees the name exists). -/
def classNameOf (sourceClass : TopLevelNode) : String :=
  (sourceClass.name.map NameNode.escapedText).getD ""

/-- `generateOutputFromClassSource` from `core.ts`: renders the template
literal (whose escape sequences `\t` and raw tab characters both denote
tabs) and wraps it into a fresh source unit named `outFileName`. -/
def generateOutputFromClassSource (outFileName : String) (sourceClass : TopLevelNode) :
    GeneratedSourceFile :=
  let className := classNameOf sourceClass
  let classLikeInterfaceName := className ++ "Like"
  let classGuardName := className ++ "Guard"
  let sourceRefName := "source"
  let methodDeclarations := parseMethodDeclarationMetadataList sourceClass.members
  let sourceFileText :=
    "import \x7b Observable \x7d from \x27rxjs\x27;\n" ++
    "import \x7b CommandQueue \x7d from \x27@obsidize/command-queue\x27;\n" ++
    "\n" ++
    "export interface " ++ classLikeInterfaceName ++ " \x7b\n" ++
    generateClassInterfaceMethods methodDeclarations "\t" ++ "\n" ++
    "\x7d\n" ++
    "\n" ++
    "export class " ++ classGuardName ++ " implements " ++ classLikeInterfaceName ++ " \x7b\n" ++
    "\t\n" ++
    "\tpublic readonly queue: CommandQueue = new CommandQueue();\n" ++
    "\t\n" ++
    "\tconstructor(\n" ++
    "\t\tpublic readonly " ++ sourceRefName ++ ": " ++ classLikeInterfaceName ++ "\n" ++
    "\t) \x7b\n" ++
    "\t\x7d\n" ++
    "\n" ++
    generateClassGuardMethodList methodDeclarations sourceRefName "\t" ++ "\n" ++
    "\x7d\n"
  { fileName := outFileName, text := sourceFileText }

/-- The message of the error thrown by `assert` in `generateAst` when the
target class is not found (`[GuardGenerator] ` prefix from `assert`). -/
def targetNotFoundMessage (inputFileName : String) : String :=
  "[GuardGenerator] Definition for input \"" ++ inputFileName ++
    "\" does not contain a cordova plugin class declaration"

/-- `generateAst` from `core.ts`, with the external parse capability
`(fileName, text) → top-level nodes` as a parameter.  `Object.assign`
defaults the two optional file names to the empty string; the `console.log`
call has no effect on the result and is not modelled.  The failed `assert`
becomes the `error` branch; it aborts the invocation before any output unit
is produced. -/
def generateAst (parseCapability : String → String → List TopLevelNode)
    (options : GenerateOptions) : Except String GeneratedSourceFile :=
  let inputFileName := options.inputFileName.getD ""
  let outputFileName := options.outputFileName.getD ""
  let inputRootNode := parseCapability inputFileName options.inputFileText
  match findClassNodeByName inputRootNode options.inputFileTargetClass with
  | none => Except.error (targetNotFoundMessage inputFileName)
  | some classNode => Except.ok (generateOutputFromClassSource outputFileName classNode)

/-- `generate` from `core.ts`: print the generated unit.  Printing
(`ts.createPrinter().printFile` on the unit produced by `generateAst`) is an
external capability that re-emits the parsed tree with its own formatting;
it is modelled as a parameter, a function of the unit's text (the only datum
of the unit that determines its tree). -/
def generate (parseCapability : String → String → List TopLevelNode)
    (printCapability : String → String) (options : GenerateOptions) :
    Except String String :=
  (generateAst parseCapability options).map (fun unit => printCapability unit.text)

/-- The dispatch strategies named by the spec (§3 DispatchStrategy). -/
inductive DispatchStrategy where
  | Stream
  | Deferred
  | Direct
deriving DecidableEq, Repr

/-- The return-type classification induced by `getQueueMethodForReturnType`:
`observe` routes through the stream dispatch, `add` through the deferred
dispatch, no queue method means a direct call (spec §4.3). -/
def classifyReturnType (returnType : String) : DispatchStrategy :=
  match getQueueMethodForReturnType returnType with
  | some q => if q = "observe" then DispatchStrategy.Stream else DispatchStrategy.Deferred
  | none => DispatchStrategy.Direct


/-- Containment of `pat` as a contiguous sublist. -/
def hasSubList (pat : List Char) : List Char → Bool
  | [] => pat.isPrefixOf []
  | c :: rest => pat.isPrefixOf (c :: rest) || hasSubList pat rest

/-- Containment of `pat` as a contiguous substring of `s`. -/
def containsText (s pat : String) : Bool :=
  hasSubList pat.data s.data

theorem hasSubList_of_isPrefixOf {pat s : List Char} (h : pat.isPrefixOf s = true) :
    hasSubList pat s = true := by
  cases s with
  | nil => simp [hasSubList, h]
  | cons c rest => simp [hasSubList, h]

theorem hasSubList_append_mid (pat a b : List Char) :
    hasSubList pat (a ++ (pat ++ b)) = true := by
  induction a with
  | nil =>
    refine hasSubList_of_isPrefixOf ?_
    simp only [List.isPrefixOf_iff_prefix]
    exact List.prefix_append pat b
  | cons c a ih => simp [hasSubList, ih]

/-- Claim C1: the classifier sends a return-type text matching the
`Observable` generic pattern (no array/union-bracket character after its
closing angle) to `Stream`, else one matching the `Promise` pattern to
`Deferred`, else to `Direct`; the table rows of the spec evaluate as stated,
a method without a return-type annotation gets returnType `any`, which is
`Direct`, and the `Observable` pattern takes precedence over `Promise`. -/
theorem C1_return_type_classification :
    classifyReturnType "Observable<string>" = DispatchStrategy.Stream ∧
    classifyReturnType "Promise<void>" = DispatchStrategy.Deferred ∧
    classifyReturnType "Observable<number>[]" = DispatchStrategy.Direct ∧
    classifyReturnType "void" = DispatchStrategy.Direct ∧
    (∀ memberNode meta, parseMethodDeclarationMetadata memberNode = some meta →
      memberNode.typeFullText = none →
      meta.returnType = "any" ∧ classifyReturnType meta.returnType = DispatchStrategy.Direct) ∧
    (∀ rt, testQueuePattern "Observable" rt = true →
      classifyReturnType rt = DispatchStrategy.Stream) ∧
    (∀ rt, testQueuePattern "Observable" rt = false → testQueuePattern "Promise" rt = true →
      classifyReturnType rt = DispatchStrategy.Deferred) ∧
    (∀ rt, testQueuePattern "Observable" rt = false → testQueuePattern "Promise" rt = false →
      classifyReturnType rt = DispatchStrategy.Direct) := by
  refine ⟨by decide, by decide, by decide, by decide, ?_, ?_, ?_, ?_⟩
  · intro memberNode meta hparse habsent
    by_cases hk : memberNode.kind = SyntaxKind.MethodDeclaration
    · simp only [parseMethodDeclarationMetadata, hk, if_neg, ne_eq, not_true_eq_false,
        if_false, ite_false, habsent] at hparse
      injection hparse with hmeta
      subst hmeta
      exact ⟨rfl, (by decide : classifyReturnType "any" = DispatchStrategy.Direct)⟩
    · simp [parseMethodDeclarationMetadata, hk] at hparse
  · intro rt h
    simp [classifyReturnType, getQueueMethodForReturnType, h]
  · intro rt h1 h2
    simp [classifyReturnType, getQueueMethodForReturnType, h1, h2]
  · intro rt h1 h2
    simp [classifyReturnType, getQueueMethodForReturnType, h1, h2]

/-- Witness for C1 at concrete inputs. -/
theorem C1_return_type_classification_witness :
    classifyReturnType "Observable<Foo>" = DispatchStrategy.Stream ∧
    classifyReturnType "Promise<Foo>" = DispatchStrategy.Deferred :=
  ⟨C1_return_type_classification.2.2.2.2.2.1 "Observable<Foo>" (by decide),
   C1_return_type_classification.2.2.2.2.2.2.1 "Promise<Foo>" (by decide) (by decide)⟩

/-- Characterization of the class-locator predicate: it accepts exactly a
class declaration whose identifier name equals the target, case-sensitively. -/
theorem isClassDeclarationWithIdentifier_iff (node : TopLevelNode) (target : String) :
    isClassDeclarationWithIdentifier node target = true ↔
      node.kind = SyntaxKind.ClassDeclaration ∧
        ∃ n, node.name = some n ∧ n.kind = SyntaxKind.Identifier ∧ n.escapedText = target := by
  rcases node with ⟨k, nm, mems⟩
  by_cases hk : k = SyntaxKind.ClassDeclaration
  · rcases nm with _ | n
    · simp [isClassDeclarationWithIdentifier, hk]
    · by_cases hnk : n.kind = SyntaxKind.Identifier
      · simp [isClassDeclarationWithIdentifier, hk, hnk]
      · simp [isClassDeclarationWithIdentifier, hk, hnk]
  · simp [isClassDeclarationWithIdentifier, hk]

/-- A parse capability producing a unit with no top-level declarations. -/
def emptyParse : String → String → List TopLevelNode := fun _ _ => []

/-- Claim C2 (counterexample): on an input with no class declaration and
target class `Foo`, the raised error does carry the attempted input file
name, but does not carry the target class name `Foo` anywhere in it.  (The
failing path never reaches the print capability, which is therefore
instantiated with an arbitrary function.) -/
theorem C2_error_lacks_target_name_counterexample :
    generate emptyParse (fun t => t)
        { inputFileText := "", inputFileTargetClass := "Foo",
          inputFileName := some "input.ts" } =
      Except.error (targetNotFoundMessage "input.ts") ∧
    containsText (targetNotFoundMessage "input.ts") "input.ts" = true ∧
    containsText (targetNotFoundMessage "input.ts") "Foo" = false :=
  ⟨rfl, by decide, by decide⟩

/-- Claim C2 (amended): the generation entry point raises the (single)
target-not-found error exactly when no top-level class declaration of the
parsed input has an identifier equal, case-sensitively, to the target name;
the error message carries the attempted input identifier (but not the target
class name), and no output is produced in that case; when a matching class
exists, an output unit is produced and no error is raised. -/
theorem C2_target_not_found_amended
    (parseCapability : String → String → List TopLevelNode) (options : GenerateOptions) :
    ((∀ node ∈ parseCapability (options.inputFileName.getD "") options.inputFileText,
        isClassDeclarationWithIdentifier node options.inputFileTargetClass = false) →
      generateAst parseCapability options =
          Except.error (targetNotFoundMessage (options.inputFileName.getD "")) ∧
        containsText (targetNotFoundMessage (options.inputFileName.getD ""))
          (options.inputFileName.getD "") = true) ∧
    ((∃ node ∈ parseCapability (options.inputFileName.getD "") options.inputFileText,
        isClassDeclarationWithIdentifier node options.inputFileTargetClass = true) →
      ∃ output, generateAst parseCapability options = Except.ok output) := by
  constructor
  · intro hnone
    have hfind : findClassNodeByName
        (parseCapability (options.inputFileName.getD "") options.inputFileText)
        options.inputFileTargetClass = none := by
      refine List.find?_eq_none.mpr ?_
      intro x hx
      simp [hnone x hx]
    constructor
    · simp [generateAst, hfind]
    · show hasSubList (options.inputFileName.getD "").data
        (targetNotFoundMessage (options.inputFileName.getD "")).data = true
      simp only [targetNotFoundMessage, String.data_append, List.append_assoc]
      exact hasSubList_append_mid _ _ _
  · intro hsome
    have hfind : (findClassNodeByName
        (parseCapability (options.inputFileName.getD "") options.inputFileText)
        options.inputFileTargetClass).isSome = true := by
      rcases hsome with ⟨node, hmem, hmatch⟩
      unfold findClassNodeByName
      exact List.find?_isSome.mpr ⟨node, hmem, hmatch⟩
    rcases Option.isSome_iff_exists.mp hfind with ⟨found, hfound⟩
    exact ⟨generateOutputFromClassSource (options.outputFileName.getD "") found,
      by simp [generateAst, hfound]⟩

/-- A top-level class-declaration node named `Foo` with no members. -/
def fooEmptyClassNode : TopLevelNode :=
  { kind := SyntaxKind.ClassDeclaration,
    name := some { kind := SyntaxKind.Identifier, escapedText := "Foo" },
    members := [] }

/-- A parse capability producing a unit whose only declaration is `Foo`. -/
def fooClassParse : String → String → List TopLevelNode := fun _ _ => [fooEmptyClassNode]

/-- Witness for the amended C2 at concrete inputs. -/
theorem C2_target_not_found_amended_witness :
    (generateAst emptyParse
        { inputFileText := "", inputFileTargetClass := "Foo",
          inputFileName := some "input.ts" } =
        Except.error (targetNotFoundMessage "input.ts") ∧
      containsText (targetNotFoundMessage "input.ts") "input.ts" = true) ∧
    (∃ output, generateAst fooClassParse
        { inputFileText := "class Foo \x7b\x7d", inputFileTargetClass := "Foo" } =
      Except.ok output) :=
  ⟨(C2_target_not_found_amended emptyParse _).1 (by intro node h; simp [emptyParse] at h),
   (C2_target_not_found_amended fooClassParse _).2 ⟨fooEmptyClassNode, by decide⟩⟩

/-- Claim C4: each generated guard-class method body returns the plain
delegating call when the method classifies `Direct`, the stream dispatch
`this.queue.observe` around a zero-argument closure performing the
delegating call when it classifies `Stream`, and the deferred dispatch
`this.queue.add` around the same closure when it classifies `Deferred`. -/
theorem C4_guard_method_body (method : MethodDeclarationMetadata) (indent : String) :
    generateClassGuardMethod method "source" indent =
      indent ++ method.declarationText ++ " \x7b\n" ++ indent ++ "\treturn " ++
        (match classifyReturnType method.returnType with
          | DispatchStrategy.Direct =>
            "this.source." ++ method.name ++ "(" ++
              joinSep ", " (method.args.map MethodArgumentMetadata.name) ++ ")"
          | DispatchStrategy.Stream =>
            "this.queue.observe(() => " ++
              ("this.source." ++ method.name ++ "(" ++
                joinSep ", " (method.args.map MethodArgumentMetadata.name) ++ ")") ++ ")"
          | DispatchStrategy.Deferred =>
            "this.queue.add(() => " ++
              ("this.source." ++ method.name ++ "(" ++
                joinSep ", " (method.args.map MethodArgumentMetadata.name) ++ ")") ++ ")") ++
        ";\n" ++ indent ++ "\x7d" := by
  by_cases h1 : testQueuePattern "Observable" method.returnType
  · simp only [generateClassGuardMethod, classifyReturnType, getQueueMethodForReturnType, h1,
      if_true, ite_true]
    rfl
  · by_cases h2 : testQueuePattern "Promise" method.returnType
    · simp only [generateClassGuardMethod, classifyReturnType, getQueueMethodForReturnType,
        h1, h2, if_true, ite_true, if_false, ite_false, Bool.false_eq_true]
      rfl
    · simp only [generateClassGuardMethod, classifyReturnType, getQueueMethodForReturnType,
        h1, h2, if_false, ite_false, Bool.false_eq_true]
      rfl


theorem string_append_assoc (a b c : String) : (a ++ b) ++ c = a ++ (b ++ c) := by
  apply String.ext
  simp [String.data_append]

/-- A method node as the TypeScript parser reports it for the source class
member `foo(x: number): void \x7b \x7d`: the type nodes `number` and `void`
have full text with their leading space (trivia), and the head as written in
the source is `foo(x: number): void`. -/
def fooMethodNode : ClassElementNode :=
  { kind := SyntaxKind.MethodDeclaration,
    nameText := "foo",
    parameters := [{ kind := SyntaxKind.Parameter, nameText := "x",
                     typeFullText := some " number", isSimpleNamed := true }],
    typeFullText := some " void",
    headText := "foo(x: number): void" }

/-- A method node as the TypeScript parser reports it for the source class
member `foo(x?: number): void \x7b \x7d`: the optional-parameter question
token is a child of the parameter distinct from its name and type nodes, so
the name text, the parameter type full text and the return type full text
are the same as for `foo(x: number): void`; only the source head differs. -/
def fooOptionalMethodNode : ClassElementNode :=
  { kind := SyntaxKind.MethodDeclaration,
    nameText := "foo",
    parameters := [{ kind := SyntaxKind.Parameter, nameText := "x",
                     typeFullText := some " number", isSimpleNamed := true }],
    typeFullText := some " void",
    headText := "foo(x?: number): void" }

/-- A top-level class declaration node named `Foo` whose single member is
the method `foo(x: number): void`. -/
def fooClassWithMethodNode : TopLevelNode :=
  { kind := SyntaxKind.ClassDeclaration,
    name := some { kind := SyntaxKind.Identifier, escapedText := "Foo" },
    members := [fooMethodNode] }

/-- A top-level class declaration node named `Foo` whose single member is
the method `foo(x?: number): void`. -/
def fooOptionalClassWithMethodNode : TopLevelNode :=
  { kind := SyntaxKind.ClassDeclaration,
    name := some { kind := SyntaxKind.Identifier, escapedText := "Foo" },
    members := [fooOptionalMethodNode] }

set_option maxRecDepth 4000 in
/-- Claim C3 (counterexample): the source methods `foo(x?: number): void`
and `foo(x: number): void` have different declaration heads, yet they parse
to the same metadata and produce byte-identical output units, and no `?`
occurs anywhere in the generated unit.  Every printing of the two equal
units is therefore the same text, and a single emitted head cannot be
textually identical to both distinct source heads, so the claim fails at
`foo(x?: number): void` (its `?` is dropped). -/
theorem C3_head_not_source_identical_counterexample :
    fooOptionalMethodNode.headText ≠ fooMethodNode.headText ∧
    parseMethodDeclarationMetadata fooOptionalMethodNode =
      parseMethodDeclarationMetadata fooMethodNode ∧
    generateOutputFromClassSource "" fooOptionalClassWithMethodNode =
      generateOutputFromClassSource "" fooClassWithMethodNode ∧
    containsText (generateOutputFromClassSource "" fooOptionalClassWithMethodNode).text
      "?" = false :=
  ⟨by decide, rfl, rfl, by decide⟩

/-- Claim C3 (amended): for every parsed method, the head emitted in the
generated interface and the head emitted in the generated guard class are
the same string: the re-render `name(arg: type, ...): returnType` built from
the parsed method name, argument names and types (type full text, empty for
an unannotated parameter) and return type (full text, `any` when absent).
The unit records nothing of optionality markers, parameter modifiers or
binding-pattern shapes, so the head ultimately printed from the unit is
determined by this parsed metadata alone and need not be textually identical
to the source method's head. -/
theorem C3_emitted_heads_agree (memberNode : ClassElementNode)
    (meta : MethodDeclarationMetadata)
    (h : parseMethodDeclarationMetadata memberNode = some meta) (indent : String) :
    meta.declarationText =
      meta.name ++ "(" ++
        joinSep ", " (meta.args.map (fun a => a.name ++ ": " ++ a.type)) ++ "): " ++
        meta.returnType ∧
    meta.name = memberNode.nameText ∧
    meta.returnType = memberNode.typeFullText.getD "any" ∧
    generateClassInterfaceMethods [meta] indent = indent ++ meta.declarationText ++ ";" ∧
    ∃ body, generateClassGuardMethod meta "source" indent =
      indent ++ meta.declarationText ++ body := by
  by_cases hk : memberNode.kind = SyntaxKind.MethodDeclaration
  · simp only [parseMethodDeclarationMetadata, hk, ne_eq, not_true_eq_false, ite_false,
      if_false] at h
    injection h with hmeta
    subst hmeta
    refine ⟨rfl, rfl, rfl, rfl, ?_⟩
    refine ⟨" \x7b\n" ++ indent ++ "\treturn " ++
      (match getQueueMethodForReturnType (Option.getD memberNode.typeFullText "any") with
        | some q => "this.queue." ++ q ++ "(() => " ++
            ("this." ++ "source" ++ "." ++ memberNode.nameText ++ "(" ++
              joinSep ", "
                ((memberNode.parameters.filterMap
                    parseMethodArgumentDeclarationMetadata).map
                  MethodArgumentMetadata.name) ++ ")") ++ ")"
        | none => "this." ++ "source" ++ "." ++ memberNode.nameText ++ "(" ++
            joinSep ", "
              ((memberNode.parameters.filterMap
                  parseMethodArgumentDeclarationMetadata).map
                MethodArgumentMetadata.name) ++ ")") ++
      ";\n" ++ indent ++ "\x7d", ?_⟩
    cases hq : getQueueMethodForReturnType (Option.getD memberNode.typeFullText "any") with
    | none =>
      simp only [generateClassGuardMethod, hq, string_append_assoc]
    | some q =>
      simp only [generateClassGuardMethod, hq, string_append_assoc]
  · simp [parseMethodDeclarationMetadata, hk] at h

/-- Witness for the amended C3 at a concrete method node. -/
theorem C3_emitted_heads_agree_witness :
    ({ name := "foo", declarationText := "foo(x:  number):  void", returnType := " void",
       args := [{ name := "x", type := " number" }] } :
        MethodDeclarationMetadata).declarationText =
      "foo" ++ "(" ++
        joinSep ", " ([({ name := "x", type := " number" } :
          MethodArgumentMetadata)].map (fun a => a.name ++ ": " ++ a.type)) ++ "): " ++
        " void" ∧
    "foo" = fooMethodNode.nameText ∧
    " void" = fooMethodNode.typeFullText.getD "any" ∧
    generateClassInterfaceMethods
        [{ name := "foo", declarationText := "foo(x:  number):  void", returnType := " void",
           args := [{ name := "x", type := " number" }] }] "\t" =
      "\t" ++ "foo(x:  number):  void" ++ ";" ∧
    ∃ body, generateClassGuardMethod
        { name := "foo", declarationText := "foo(x:  number):  void", returnType := " void",
          args := [{ name := "x", type := " number" }] } "source" "\t" =
      "\t" ++ "foo(x:  number):  void" ++ body :=
  C3_emitted_heads_agree fooMethodNode _ (by decide) "\t"

/-- Claim C5: the parsed metadata list keeps exactly the method members of
the class, in declaration order, under their source names, and both the
generated interface body and the generated guard-class body are rendered by
mapping over that same list in the same order. -/
theorem C5_method_order (members : List ClassElementNode) (sourceRefName indent : String) :
    (parseMethodDeclarationMetadataList members).map MethodDeclarationMetadata.name =
      (members.filter (fun e => e.kind == SyntaxKind.MethodDeclaration)).map
        ClassElementNode.nameText ∧
    generateClassInterfaceMethods (parseMethodDeclarationMetadataList members) indent =
      joinSep "\n" ((parseMethodDeclarationMetadataList members).map
        (fun m => indent ++ m.declarationText ++ ";")) ∧
    generateClassGuardMethodList (parseMethodDeclarationMetadataList members)
        sourceRefName indent =
      joinSep "\n" ((parseMethodDeclarationMetadataList members).map
        (fun m => generateClassGuardMethod m sourceRefName indent)) := by
  refine ⟨?_, rfl, rfl⟩
  induction members with
  | nil => rfl
  | cons e rest ih =>
    by_cases hk : e.kind = SyntaxKind.MethodDeclaration
    · simp [parseMethodDeclarationMetadataList, List.filterMap_cons,
        parseMethodDeclarationMetadata, hk, List.filter_cons,
        parseMethodDeclarationMetadataList] at ih ⊢
      exact ih
    · simp [parseMethodDeclarationMetadataList, List.filterMap_cons,
        parseMethodDeclarationMetadata, hk, List.filter_cons] at ih ⊢
      exact ih

/-- A method node for the source class member `bar(\x7b a, b \x7d: Foo): void`:
its single formal parameter is a destructuring binding pattern, not a simple
named parameter, and the text of its name node is the pattern text. -/
def barDestructuredMethodNode : ClassElementNode :=
  { kind := SyntaxKind.MethodDeclaration,
    nameText := "bar",
    parameters := [{ kind := SyntaxKind.Parameter, nameText := "\x7b a, b \x7d",
                     typeFullText := some " Foo", isSimpleNamed := false }],
    typeFullText := some " void",
    headText := "bar(\x7b a, b \x7d: Foo): void" }

/-- The argument list the claim describes: one entry per formal parameter
that is a simple named parameter, all other parameters skipped. -/
def simpleNamedArguments (parameters : List ParameterNode) : List MethodArgumentMetadata :=
  (parameters.filter ParameterNode.isSimpleNamed).map
    (fun p => { name := p.nameText, type := p.typeFullText.getD "" })

/-- Claim C7 (counterexample): a destructuring parameter is not skipped: the
extractor keeps one entry for it, using the binding pattern text as the
argument name, so the extracted list differs from the claimed one. -/
theorem C7_destructured_parameter_counterexample :
    (parseMethodDeclarationMetadata barDestructuredMethodNode).map
        MethodDeclarationMetadata.args =
      some [{ name := "\x7b a, b \x7d", type := " Foo" }] ∧
    simpleNamedArguments barDestructuredMethodNode.parameters = [] ∧
    (parseMethodDeclarationMetadata barDestructuredMethodNode).map
        MethodDeclarationMetadata.args ≠
      some (simpleNamedArguments barDestructuredMethodNode.parameters) :=
  ⟨by decide, by decide, by decide⟩

/-- Mapping of the argument extractor over a parameter list all of whose
nodes have kind `Parameter`: nothing is skipped. -/
theorem filterMap_arguments_eq_map (parameters : List ParameterNode)
    (hk : ∀ p ∈ parameters, p.kind = SyntaxKind.Parameter) :
    parameters.filterMap parseMethodArgumentDeclarationMetadata =
      parameters.map (fun p => { name := p.nameText, type := p.typeFullText.getD "" }) := by
  induction parameters with
  | nil => rfl
  | cons p rest ih =>
    have hp : p.kind = SyntaxKind.Parameter := hk p (by simp)
    simp [List.filterMap_cons, parseMethodArgumentDeclarationMetadata, hp]
    exact ih (fun q hq => hk q (List.mem_cons_of_mem _ hq))

/-- Claim C7 (amended): the extracted argument list has, in declared order,
one `(name, type)` entry per formal parameter node of kind `Parameter`
(which is every formal parameter the parser produces, destructured or not;
only a node of a different kind would be skipped), where `name` is the
parameter name node's source text and `type` is the annotated type's full
text, or the empty string when no annotation exists. -/
theorem C7_argument_extraction (memberNode : ClassElementNode)
    (meta : MethodDeclarationMetadata)
    (h : parseMethodDeclarationMetadata memberNode = some meta)
    (hk : ∀ p ∈ memberNode.parameters, p.kind = SyntaxKind.Parameter) :
    meta.args = memberNode.parameters.map
      (fun p => { name := p.nameText, type := p.typeFullText.getD "" }) := by
  by_cases hm : memberNode.kind = SyntaxKind.MethodDeclaration
  · simp only [parseMethodDeclarationMetadata, hm, ne_eq, not_true_eq_false, ite_false,
      if_false] at h
    injection h with hmeta
    subst hmeta
    exact filterMap_arguments_eq_map memberNode.parameters hk
  · simp [parseMethodDeclarationMetadata, hm] at h

/-- Witness for the amended C7 at a concrete method node. -/
theorem C7_argument_extraction_witness :
    ({ name := "foo", declarationText := "foo(x:  number):  void", returnType := " void",
       args := [{ name := "x", type := " number" }] } :
        MethodDeclarationMetadata).args =
      fooMethodNode.parameters.map
        (fun p => { name := p.nameText, type := p.typeFullText.getD "" }) :=
  C7_argument_extraction fooMethodNode _ (by decide) (by decide)


theorem hasSubList_append_left (x : List Char) {pat s : List Char}
    (h : hasSubList pat s = true) : hasSubList pat (x ++ s) = true := by
  induction x with
  | nil => exact h
  | cons c xs ih => simp [hasSubList, ih]

theorem containsText_append_left (x s pat : String) (h : containsText s pat = true) :
    containsText (x ++ s) pat = true := by
  show hasSubList pat.data (x ++ s).data = true
  rw [String.data_append]
  exact hasSubList_append_left x.data h

theorem containsText_here (pat b : String) : containsText (pat ++ b) pat = true := by
  show hasSubList pat.data (pat ++ b).data = true
  rw [String.data_append]
  exact hasSubList_of_isPrefixOf (List.isPrefixOf_iff_prefix.mpr (List.prefix_append _ _))

/-- Test that `pat` is a prefix of `s`. -/
def startsText (s pat : String) : Bool :=
  pat.data.isPrefixOf s.data

theorem startsText_append (a b : String) : startsText (a ++ b) a = true := by
  show a.data.isPrefixOf (a ++ b).data = true
  rw [String.data_append]
  exact List.isPrefixOf_iff_prefix.mpr (List.prefix_append _ _)

/-- The generated text of `generateOutputFromClassSource`, re-grouped into a
right-nested sequence of its template pieces. -/
theorem generateOutput_text_decomposition (outFileName : String) (cls : TopLevelNode) :
    (generateOutputFromClassSource outFileName cls).text =
      "import \x7b Observable \x7d from \x27rxjs\x27;\n" ++
      ("import \x7b CommandQueue \x7d from \x27@obsidize/command-queue\x27;\n" ++
      ("\n" ++
      ("export interface " ++
      ((classNameOf cls ++ "Like") ++
      (" \x7b\n" ++
      (generateClassInterfaceMethods (parseMethodDeclarationMetadataList cls.members) "\t" ++
      ("\n" ++
      ("\x7d\n" ++
      ("\n" ++
      ("export class " ++
      ((classNameOf cls ++ "Guard") ++
      (" implements " ++
      ((classNameOf cls ++ "Like") ++
      (" \x7b\n" ++
      ("\t\n" ++
      ("\tpublic readonly queue: CommandQueue = new CommandQueue();\n" ++
      ("\t\n" ++
      ("\tconstructor(\n" ++
      ("\t\tpublic readonly " ++
      ("source" ++
      (": " ++
      ((classNameOf cls ++ "Like") ++
      ("\n" ++
      ("\t) \x7b\n" ++
      ("\t\x7d\n" ++
      ("\n" ++
      (generateClassGuardMethodList (parseMethodDeclarationMetadataList cls.members) "source" "\t" ++
      ("\n" ++
      ("\x7d\n"))))))))))))))))))))))))))))) := by
  simp only [generateOutputFromClassSource, classNameOf, string_append_assoc]

/-- Claim C8: the pipeline is referentially transparent: two invocations of
the generation entry point with the same external parse and print
capabilities and equal options return the same result, byte-identical output
text on success and the identical error on failure; no component of the core
holds state across invocations (the embedding of the core is a pure
function, and the deterministic external capabilities are fixed functions). -/
theorem C8_determinism (parseCapability : String → String → List TopLevelNode)
    (printCapability : String → String)
    (options1 options2 : GenerateOptions) (h : options1 = options2) :
    generate parseCapability printCapability options1 =
      generate parseCapability printCapability options2 := by
  rw [h]

/-- Witness for C8 at a concrete invocation pair. -/
theorem C8_determinism_witness :
    generate fooClassParse (fun t => t)
        { inputFileText := "class Foo \x7b\x7d", inputFileTargetClass := "Foo" } =
      generate fooClassParse (fun t => t)
        { inputFileText := "class Foo \x7b\x7d", inputFileTargetClass := "Foo" } :=
  C8_determinism fooClassParse (fun t => t) _ _ rfl

/-- The two import lines that begin every generated unit. -/
def fixedImportHeader : String :=
  "import \x7b Observable \x7d from \x27rxjs\x27;\n" ++
    "import \x7b CommandQueue \x7d from \x27@obsidize/command-queue\x27;\n"

/-- The guard-class queue field line, present in every generated unit. -/
def queueFieldLine : String :=
  "\tpublic readonly queue: CommandQueue = new CommandQueue();\n"

/-- Claim C9: every successful invocation constructs its in-memory output
unit with a text that begins with the two fixed import declarations (for
`Observable` and `CommandQueue`) and contains the guard class's public
readonly `queue: CommandQueue` field line, for every input class, whether or
not any of its methods classifies as `Stream` or `Deferred`; the printed
output is the external print capability applied to exactly this text, so the
unit the printer renders carries the imports and the queue field
unconditionally. -/
theorem C9_fixed_imports_and_queue_field
    (parseCapability : String → String → List TopLevelNode)
    (printCapability : String → String) (options : GenerateOptions)
    (unit : GeneratedSourceFile)
    (h : generateAst parseCapability options = Except.ok unit) :
    startsText unit.text fixedImportHeader = true ∧
    containsText unit.text queueFieldLine = true ∧
    generate parseCapability printCapability options =
      Except.ok (printCapability unit.text) := by
  cases hf : findClassNodeByName
      (parseCapability (options.inputFileName.getD "") options.inputFileText)
      options.inputFileTargetClass with
  | none => simp [generateAst, hf] at h
  | some cls =>
    simp only [generateAst, hf] at h
    injection h with h
    refine ⟨?_, ?_, ?_⟩
    · rw [← h, generateOutput_text_decomposition, ← string_append_assoc]
      exact startsText_append _ _
    · rw [← h, generateOutput_text_decomposition]
      iterate 16 apply containsText_append_left
      exact containsText_here _ _
    · simp only [generate, generateAst, hf, Except.map]
      rw [h]

/-- Witness for C9 at a concrete invocation. -/
theorem C9_fixed_imports_and_queue_field_witness :
    startsText ((generateOutputFromClassSource "" fooEmptyClassNode).text)
        fixedImportHeader = true ∧
    containsText ((generateOutputFromClassSource "" fooEmptyClassNode).text)
        queueFieldLine = true ∧
    generate fooClassParse (fun t => t)
        { inputFileText := "class Foo \x7b\x7d", inputFileTargetClass := "Foo" } =
      Except.ok ((fun t => t)
        ((generateOutputFromClassSource "" fooEmptyClassNode).text)) :=
  C9_fixed_imports_and_queue_field fooClassParse (fun t => t)
    { inputFileText := "class Foo \x7b\x7d", inputFileTargetClass := "Foo" } _ rfl

/-- Split a character list into its lines at newline characters. -/
def splitLines : List Char → List (List Char)
  | [] => [[]]
  | c :: rest =>
    if c = '\n' then [] :: splitLines rest
    else
      match splitLines rest with
      | [] => [[c]]
      | l :: ls => (c :: l) :: ls

/-- Join lines with newline characters (inverse of `splitLines` on
newline-free lines). -/
def joinLines : List (List Char) → List Char
  | [] => []
  | [l] => l
  | l :: l2 :: ls => l ++ '\n' :: joinLines (l2 :: ls)

/-- The line list of a joined block: an empty block is one empty line. -/
def linesOfJoined : List (List Char) → List (List Char)
  | [] => [[]]
  | l :: ls => l :: ls

theorem linesOfJoined_ne_nil (L : List (List Char)) : linesOfJoined L ≠ [] := by
  cases L <;> simp [linesOfJoined]

theorem joinLines_linesOfJoined (L : List (List Char)) :
    joinLines (linesOfJoined L) = joinLines L := by
  cases L <;> rfl

theorem joinLines_cons (l : List Char) (L : List (List Char)) (h : L ≠ []) :
    joinLines (l :: L) = l ++ '\n' :: joinLines L := by
  cases L with
  | nil => exact absurd rfl h
  | cons l2 ls => rfl

theorem joinLines_append {X Y : List (List Char)} (hx : X ≠ []) (hy : Y ≠ []) :
    joinLines (X ++ Y) = joinLines X ++ '\n' :: joinLines Y := by
  induction X with
  | nil => exact absurd rfl hx
  | cons x xs ih =>
    cases xs with
    | nil =>
      rw [List.singleton_append, joinLines_cons x Y hy]
      rfl
    | cons x2 xs2 =>
      rw [List.cons_append, joinLines_cons x ((x2 :: xs2) ++ Y) (by simp),
        ih (by simp), joinLines_cons x (x2 :: xs2) (by simp)]
      simp [List.append_assoc]

theorem splitLines_no_newline {l : List Char} (h : '\n' ∉ l) : splitLines l = [l] := by
  induction l with
  | nil => rfl
  | cons c rest ih =>
    have hc : ¬c = '\n' := fun hc => h (by simp [hc])
    have hr : splitLines rest = [rest] := ih (fun hm => h (by simp [hm]))
    simp [splitLines, hc, hr]

theorem splitLines_append_newline {l t : List Char} (h : '\n' ∉ l) :
    splitLines (l ++ '\n' :: t) = l :: splitLines t := by
  induction l with
  | nil => simp [splitLines]
  | cons c rest ih =>
    have hc : ¬c = '\n' := fun hc => h (by simp [hc])
    have hr := ih (fun hm => h (by simp [hm]))
    simp [splitLines, hc, hr]

theorem splitLines_joinLines {L : List (List Char)} (hne : L ≠ [])
    (h : ∀ l ∈ L, '\n' ∉ l) : splitLines (joinLines L) = L := by
  induction L with
  | nil => exact absurd rfl hne
  | cons l ls ih =>
    cases ls with
    | nil => exact splitLines_no_newline (h l (by simp))
    | cons l2 ls2 =>
      rw [joinLines_cons l (l2 :: ls2) (by simp),
        splitLines_append_newline (h l (by simp)),
        ih (by simp) (fun x hx => h x (List.mem_cons_of_mem _ hx))]

theorem joinSep_newline_data (L : List String) :
    (joinSep "\n" L).data = joinLines (L.map String.data) := by
  induction L with
  | nil => rfl
  | cons a rest ih =>
    cases rest with
    | nil => rfl
    | cons b rest2 =>
      show (a ++ "\n" ++ joinSep "\n" (b :: rest2)).data = _
      rw [String.data_append, String.data_append, ih]
      rw [show List.map String.data (a :: b :: rest2) =
        a.data :: List.map String.data (b :: rest2) from rfl]
      rw [joinLines_cons a.data (List.map String.data (b :: rest2)) (by simp)]
      have hnl : ("\n" : String).data = ['\n'] := rfl
      simp [hnl, List.append_assoc]

/-- The delegating call `this.source.<name>(<args>)` of a guard method. -/
def guardSourceCall (method : MethodDeclarationMetadata) : String :=
  "this." ++ "source" ++ "." ++ method.name ++ "(" ++
    joinSep ", " (method.args.map MethodArgumentMetadata.name) ++ ")"

/-- The expression returned by a generated guard method body. -/
def guardMethodBodyReturn (method : MethodDeclarationMetadata) : String :=
  match getQueueMethodForReturnType method.returnType with
  | some q => "this.queue." ++ q ++ "(() => " ++ guardSourceCall method ++ ")"
  | none => guardSourceCall method

theorem guardMethod_eq (method : MethodDeclarationMetadata) :
    generateClassGuardMethod method "source" "\t" =
      "\t" ++ method.declarationText ++ " \x7b\n" ++ "\t" ++ "\treturn " ++
        guardMethodBodyReturn method ++ ";\n" ++ "\t" ++ "\x7d" := by
  cases hq : getQueueMethodForReturnType method.returnType with
  | none =>
    simp [generateClassGuardMethod, guardMethodBodyReturn, guardSourceCall, hq]
  | some q =>
    simp [generateClassGuardMethod, guardMethodBodyReturn, guardSourceCall, hq]

/-- One interface member line, tab-indented. -/
def interfaceMethodLine (method : MethodDeclarationMetadata) : String :=
  "\t" ++ method.declarationText ++ ";"

/-- The three lines of one generated guard method, tab-indented. -/
def guardMethodLines (method : MethodDeclarationMetadata) : List String :=
  ["\t" ++ method.declarationText ++ " \x7b",
   "\t" ++ "\treturn " ++ guardMethodBodyReturn method ++ ";",
   "\t" ++ "\x7d"]

theorem guardMethod_data_lines (method : MethodDeclarationMetadata) :
    (generateClassGuardMethod method "source" "\t").data =
      joinLines ((guardMethodLines method).map String.data) := by
  rw [guardMethod_eq]
  have h1 : (" \x7b\n" : String).data = (" \x7b" : String).data ++ ['\n'] := rfl
  have h2 : (";\n" : String).data = (";" : String).data ++ ['\n'] := rfl
  simp [guardMethodLines, joinLines, String.data_append, h1, h2, List.append_assoc]

theorem interfaceMethods_data_lines (methods : List MethodDeclarationMetadata) :
    (generateClassInterfaceMethods methods "\t").data =
      joinLines ((methods.map interfaceMethodLine).map String.data) := by
  have : generateClassInterfaceMethods methods "\t" =
      joinSep "\n" (methods.map interfaceMethodLine) := rfl
  rw [this, joinSep_newline_data]

theorem guardMethodList_data_lines (methods : List MethodDeclarationMetadata) :
    (generateClassGuardMethodList methods "source" "\t").data =
      joinLines (((methods.flatMap guardMethodLines)).map String.data) := by
  induction methods with
  | nil => rfl
  | cons m rest ih =>
    cases rest with
    | nil =>
      show (joinSep "\n" [generateClassGuardMethod m "source" "\t"]).data = _
      simp only [joinSep, List.flatMap_cons, List.flatMap_nil, List.append_nil]
      exact guardMethod_data_lines m
    | cons m2 rest2 =>
      show (generateClassGuardMethod m "source" "\t" ++ "\n" ++
        generateClassGuardMethodList (m2 :: rest2) "source" "\t").data = _
      rw [String.data_append, String.data_append, ih, guardMethod_data_lines m]
      rw [show (m :: m2 :: rest2).flatMap guardMethodLines =
        guardMethodLines m ++ (m2 :: rest2).flatMap guardMethodLines from rfl]
      rw [List.map_append]
      rw [joinLines_append (by simp [guardMethodLines])
        (by simp [List.flatMap_cons, guardMethodLines])]
      have hnl : ("\n" : String).data = ['\n'] := rfl
      simp [hnl, List.append_assoc]


/-- The header line opening the generated interface declaration. -/
def interfaceHeaderLine (cn : String) : String :=
  "export interface " ++ (cn ++ "Like") ++ " \x7b"

/-- The header line opening the generated guard-class declaration. -/
def classHeaderLine (cn : String) : String :=
  "export class " ++ (cn ++ "Guard") ++ " implements " ++ (cn ++ "Like") ++ " \x7b"

/-- The generated unit, line by line. -/
def outputLineList (cls : TopLevelNode) : List (List Char) :=
  [("import \x7b Observable \x7d from \x27rxjs\x27;" : String).data,
   ("import \x7b CommandQueue \x7d from \x27@obsidize/command-queue\x27;" : String).data,
   [],
   (interfaceHeaderLine (classNameOf cls)).data] ++
  linesOfJoined (((parseMethodDeclarationMetadataList cls.members).map
      interfaceMethodLine).map String.data) ++
  [['\x7d'],
   [],
   (classHeaderLine (classNameOf cls)).data,
   ['\t'],
   ("\tpublic readonly queue: CommandQueue = new CommandQueue();" : String).data,
   ['\t'],
   ("\tconstructor(" : String).data,
   ("\t\tpublic readonly " ++ "source" ++ ": " ++ (classNameOf cls ++ "Like")).data,
   ("\t) \x7b" : String).data,
   ("\t\x7d" : String).data,
   []] ++
  linesOfJoined (((parseMethodDeclarationMetadataList cls.members).flatMap
      guardMethodLines).map String.data) ++
  [['\x7d'], []]

/-- The generated text is exactly the newline-join of its line list. -/
theorem output_data_eq_joinLines (outFileName : String) (cls : TopLevelNode) :
    (generateOutputFromClassSource outFileName cls).text.data =
      joinLines (outputLineList cls) := by
  have e1 : ("import \x7b Observable \x7d from \x27rxjs\x27;\n" : String).data =
      ("import \x7b Observable \x7d from \x27rxjs\x27;" : String).data ++ ['\n'] := rfl
  have e2 : ("import \x7b CommandQueue \x7d from \x27@obsidize/command-queue\x27;\n" :
      String).data =
      ("import \x7b CommandQueue \x7d from \x27@obsidize/command-queue\x27;" :
        String).data ++ ['\n'] := rfl
  have e3 : ("\n" : String).data = ['\n'] := rfl
  have e4 : (" \x7b\n" : String).data = (" \x7b" : String).data ++ ['\n'] := rfl
  have e5 : ("\x7d\n" : String).data = ['\x7d'] ++ ['\n'] := rfl
  have e6 : ("\t\n" : String).data = ['\t'] ++ ['\n'] := rfl
  have e7 : ("\tpublic readonly queue: CommandQueue = new CommandQueue();\n" : String).data =
      ("\tpublic readonly queue: CommandQueue = new CommandQueue();" : String).data ++
        ['\n'] := rfl
  have e8 : ("\tconstructor(\n" : String).data =
      ("\tconstructor(" : String).data ++ ['\n'] := rfl
  have e9 : ("\t) \x7b\n" : String).data = ("\t) \x7b" : String).data ++ ['\n'] := rfl
  have e10 : ("\t\x7d\n" : String).data = ("\t\x7d" : String).data ++ ['\n'] := rfl
  have hL1 : linesOfJoined (((parseMethodDeclarationMetadataList cls.members).map
      interfaceMethodLine).map String.data) ≠ [] := linesOfJoined_ne_nil _
  have hL2 : linesOfJoined (((parseMethodDeclarationMetadataList cls.members).flatMap
      guardMethodLines).map String.data) ≠ [] := linesOfJoined_ne_nil _
  rw [generateOutput_text_decomposition]
  rw [show outputLineList cls =
    [("import \x7b Observable \x7d from \x27rxjs\x27;" : String).data,
     ("import \x7b CommandQueue \x7d from \x27@obsidize/command-queue\x27;" : String).data,
     [],
     (interfaceHeaderLine (classNameOf cls)).data] ++
    (linesOfJoined (((parseMethodDeclarationMetadataList cls.members).map
        interfaceMethodLine).map String.data) ++
    ([['\x7d'],
      [],
      (classHeaderLine (classNameOf cls)).data,
      ['\t'],
      ("\tpublic readonly queue: CommandQueue = new CommandQueue();" : String).data,
      ['\t'],
      ("\tconstructor(" : String).data,
      ("\t\tpublic readonly " ++ "source" ++ ": " ++ (classNameOf cls ++ "Like")).data,
      ("\t) \x7b" : String).data,
      ("\t\x7d" : String).data,
      []] ++
    (linesOfJoined (((parseMethodDeclarationMetadataList cls.members).flatMap
        guardMethodLines).map String.data) ++
    [['\x7d'], []]))) from by simp [outputLineList, List.append_assoc]]
  rw [joinLines_append (by simp) (by simp [hL1]),
    joinLines_append hL1 (by simp),
    joinLines_append (by simp) (by simp [hL2]),
    joinLines_append hL2 (by simp)]
  rw [joinLines_linesOfJoined, joinLines_linesOfJoined]
  rw [← interfaceMethods_data_lines, ← guardMethodList_data_lines]
  simp only [joinLines, interfaceHeaderLine, classHeaderLine, String.data_append,
    e1, e2, e3, e4, e5, e6, e7, e8, e9, e10, List.append_assoc, List.cons_append,
    List.singleton_append, List.nil_append, List.append_nil]


theorem filter_linesOfJoined (p : List Char → Bool) (hp : p [] = false)
    (X : List (List Char)) : (linesOfJoined X).filter p = X.filter p := by
  cases X with
  | nil => simp [linesOfJoined, List.filter_cons, hp]
  | cons l ls => rfl

theorem getQueueMethod_eq_observe_or_add {rt q : String}
    (h : getQueueMethodForReturnType rt = some q) : q = "observe" ∨ q = "add" := by
  unfold getQueueMethodForReturnType at h
  by_cases h1 : testQueuePattern "Observable" rt
  · simp [h1] at h
    exact Or.inl h.symm
  · by_cases h2 : testQueuePattern "Promise" rt
    · simp [h1, h2] at h
      exact Or.inr h.symm
    · simp [h1, h2] at h

theorem interfaceHeaderLine_split (cn : String) :
    interfaceHeaderLine cn = "export " ++ ("interface " ++ (cn ++ "Like") ++ " \x7b") := by
  have hlit : ("export interface " : String).data =
      ("export " : String).data ++ ("interface " : String).data := rfl
  apply String.ext
  simp [interfaceHeaderLine, String.data_append, hlit, List.append_assoc]

theorem classHeaderLine_split (cn : String) :
    classHeaderLine cn =
      "export " ++ ("class " ++ (cn ++ "Guard") ++ " implements " ++ (cn ++ "Like") ++
        " \x7b") := by
  have hlit : ("export class " : String).data =
      ("export " : String).data ++ ("class " : String).data := rfl
  apply String.ext
  simp [classHeaderLine, String.data_append, hlit, List.append_assoc]

theorem isPrefixOf_export_headerLine (t : String) :
    ("export " : String).data.isPrefixOf (("export " ++ t) : String).data = true := by
  rw [String.data_append]
  exact List.isPrefixOf_iff_prefix.mpr (List.prefix_append _ _)

/-- The predicate selecting lines that open an exported declaration. -/
def exportPred (l : List Char) : Bool :=
  ("export " : String).data.isPrefixOf l

/-- Exactly the two declaration header lines of the generated unit start with
`export `: the interface header, then the guard-class header. -/
theorem filter_export_outputLineList (cls : TopLevelNode) :
    (outputLineList cls).filter exportPred =
      [(interfaceHeaderLine (classNameOf cls)).data,
       (classHeaderLine (classNameOf cls)).data] := by
  have hneg : ∀ {l : List Char}, exportPred l = false → ¬exportPred l = true :=
    fun h h2 => Bool.false_ne_true (h.symm.trans h2)
  have hifcTrue : exportPred (interfaceHeaderLine (classNameOf cls)).data = true := by
    show ("export " : String).data.isPrefixOf _ = true
    rw [interfaceHeaderLine_split]
    exact isPrefixOf_export_headerLine _
  have hclsTrue : exportPred (classHeaderLine (classNameOf cls)).data = true := by
    show ("export " : String).data.isPrefixOf _ = true
    rw [classHeaderLine_split]
    exact isPrefixOf_export_headerLine _
  have hifcLines : (((parseMethodDeclarationMetadataList cls.members).map
      interfaceMethodLine).map String.data).filter exportPred = [] := by
    refine List.filter_eq_nil_iff.mpr ?_
    intro l hl
    simp only [List.mem_map] at hl
    obtain ⟨l2, hl2, rfl⟩ := hl
    obtain ⟨m, hm, rfl⟩ := hl2
    exact hneg rfl
  have hguardLines : (((parseMethodDeclarationMetadataList cls.members).flatMap
      guardMethodLines).map String.data).filter exportPred = [] := by
    refine List.filter_eq_nil_iff.mpr ?_
    intro l hl
    simp only [List.mem_map, List.mem_flatMap] at hl
    obtain ⟨l2, ⟨m, hm, hl2⟩, rfl⟩ := hl
    simp only [guardMethodLines, List.mem_cons, List.not_mem_nil, or_false] at hl2
    rcases hl2 with rfl | rfl | rfl
    · exact hneg rfl
    · exact hneg rfl
    · exact hneg rfl
  have n1 : ¬exportPred
      ("import \x7b Observable \x7d from \x27rxjs\x27;" : String).data = true := hneg rfl
  have n2 : ¬exportPred
      ("import \x7b CommandQueue \x7d from \x27@obsidize/command-queue\x27;" :
        String).data = true := hneg rfl
  have n0 : ¬exportPred ([] : List Char) = true := hneg rfl
  have nbrace : ¬exportPred ['\x7d'] = true := hneg rfl
  have ntab : ¬exportPred ['\t'] = true := hneg rfl
  have nqueue : ¬exportPred
      ("\tpublic readonly queue: CommandQueue = new CommandQueue();" : String).data =
        true := hneg rfl
  have nctor : ¬exportPred ("\tconstructor(" : String).data = true := hneg rfl
  have nparam : ¬exportPred
      (("\t\tpublic readonly " ++ "source" ++ ": " ++ (classNameOf cls ++ "Like")) :
        String).data = true := hneg rfl
  have nclosep : ¬exportPred ("\t) \x7b" : String).data = true := hneg rfl
  have ncloseb : ¬exportPred ("\t\x7d" : String).data = true := hneg rfl
  unfold outputLineList
  rw [List.filter_append, List.filter_append, List.filter_append, List.filter_append,
    filter_linesOfJoined exportPred rfl, filter_linesOfJoined exportPred rfl,
    hifcLines, hguardLines,
    List.filter_cons_of_neg n1, List.filter_cons_of_neg n2, List.filter_cons_of_neg n0,
    List.filter_cons_of_pos hifcTrue, List.filter_nil,
    List.filter_cons_of_neg nbrace, List.filter_cons_of_neg n0,
    List.filter_cons_of_pos hclsTrue,
    List.filter_cons_of_neg ntab, List.filter_cons_of_neg nqueue,
    List.filter_cons_of_neg ntab, List.filter_cons_of_neg nctor,
    List.filter_cons_of_neg nparam, List.filter_cons_of_neg nclosep,
    List.filter_cons_of_neg ncloseb, List.filter_cons_of_neg n0,
    List.filter_cons_of_neg nbrace, List.filter_cons_of_neg n0, List.filter_nil]
  rfl


theorem notMem_joinSep_data {c : Char} {sep : String} (L : List String)
    (hsep : c ∉ sep.data) (h : ∀ s ∈ L, c ∉ s.data) : c ∉ (joinSep sep L).data := by
  induction L with
  | nil => exact List.not_mem_nil c
  | cons a rest ih =>
    cases rest with
    | nil => exact h a (by simp)
    | cons b r2 =>
      show c ∉ ((a ++ sep ++ joinSep sep (b :: r2)) : String).data
      rw [String.data_append, String.data_append]
      intro hmem
      rcases List.mem_append.mp hmem with hmem2 | hmem3
      · rcases List.mem_append.mp hmem2 with h4 | h5
        · exact h a (by simp) h4
        · exact hsep h5
      · exact ih (fun t ht => h t (List.mem_cons_of_mem _ ht)) hmem3

theorem nl_notMem_guardSourceCall {m : MethodDeclarationMetadata}
    (hname : '\n' ∉ m.name.data) (hargs : ∀ a ∈ m.args, '\n' ∉ a.name.data) :
    '\n' ∉ (guardSourceCall m).data := by
  unfold guardSourceCall
  simp only [String.data_append]
  intro hmem
  simp only [List.mem_append] at hmem
  rcases hmem with (((((h1 | h2) | h3) | h4) | h5) | h6) | h7
  · exact absurd h1 (by decide)
  · exact absurd h2 (by decide)
  · exact absurd h3 (by decide)
  · exact hname h4
  · exact absurd h5 (by decide)
  · refine notMem_joinSep_data _ (by decide) ?_ h6
    intro t ht
    simp only [List.mem_map] at ht
    obtain ⟨a, ha, rfl⟩ := ht
    exact hargs a ha
  · exact absurd h7 (by decide)

theorem nl_notMem_guardBodyReturn {m : MethodDeclarationMetadata}
    (hname : '\n' ∉ m.name.data) (hargs : ∀ a ∈ m.args, '\n' ∉ a.name.data) :
    '\n' ∉ (guardMethodBodyReturn m).data := by
  unfold guardMethodBodyReturn
  cases hq : getQueueMethodForReturnType m.returnType with
  | none => exact nl_notMem_guardSourceCall hname hargs
  | some q =>
    rcases getQueueMethod_eq_observe_or_add hq with rfl | rfl <;>
    · simp only [String.data_append]
      intro hmem
      simp only [List.mem_append] at hmem
      rcases hmem with (((h1 | h2) | h3) | h4) | h5
      · exact absurd h1 (by decide)
      · exact absurd h2 (by decide)
      · exact absurd h3 (by decide)
      · exact nl_notMem_guardSourceCall hname hargs h4
      · exact absurd h5 (by decide)

theorem mem_linesOfJoined {l : List Char} {X : List (List Char)}
    (h : l ∈ linesOfJoined X) : l = [] ∨ l ∈ X := by
  cases X with
  | nil =>
    simp only [linesOfJoined, List.mem_cons, List.not_mem_nil, or_false] at h
    exact Or.inl h
  | cons x xs => exact Or.inr h

theorem nl_notMem_outputLineList (cls : TopLevelNode)
    (hcn : '\n' ∉ (classNameOf cls).data)
    (hm : ∀ meta ∈ parseMethodDeclarationMetadataList cls.members,
      '\n' ∉ meta.declarationText.data ∧ '\n' ∉ meta.name.data ∧
      ∀ a ∈ meta.args, '\n' ∉ a.name.data) :
    ∀ l ∈ outputLineList cls, '\n' ∉ l := by
  have hifcHeader : '\n' ∉ (interfaceHeaderLine (classNameOf cls)).data := by
    unfold interfaceHeaderLine
    simp only [String.data_append]
    intro hmem
    simp only [List.mem_append] at hmem
    rcases hmem with (h1 | (h2 | h3)) | h4
    · exact absurd h1 (by decide)
    · exact hcn h2
    · exact absurd h3 (by decide)
    · exact absurd h4 (by decide)
  have hclsHeader : '\n' ∉ (classHeaderLine (classNameOf cls)).data := by
    unfold classHeaderLine
    simp only [String.data_append]
    intro hmem
    simp only [List.mem_append] at hmem
    rcases hmem with (((h1 | (h2 | h3)) | h4) | (h5 | h6)) | h7
    · exact absurd h1 (by decide)
    · exact hcn h2
    · exact absurd h3 (by decide)
    · exact absurd h4 (by decide)
    · exact hcn h5
    · exact absurd h6 (by decide)
    · exact absurd h7 (by decide)
  have hparam : '\n' ∉ (("\t\tpublic readonly " ++ "source" ++ ": " ++
      (classNameOf cls ++ "Like")) : String).data := by
    simp only [String.data_append]
    intro hmem
    simp only [List.mem_append] at hmem
    rcases hmem with ((h1 | h2) | h3) | (h4 | h5)
    · exact absurd h1 (by decide)
    · exact absurd h2 (by decide)
    · exact absurd h3 (by decide)
    · exact hcn h4
    · exact absurd h5 (by decide)
  intro l hl
  unfold outputLineList at hl
  rcases List.mem_append.mp hl with h4 | hC
  rcases List.mem_append.mp h4 with h3 | hL2
  rcases List.mem_append.mp h3 with h2 | hB
  rcases List.mem_append.mp h2 with hA | hL1
  · simp only [List.mem_cons, List.not_mem_nil, or_false] at hA
    rcases hA with rfl | rfl | rfl | rfl
    · exact (by decide)
    · exact (by decide)
    · exact (by decide)
    · exact hifcHeader
  · rcases mem_linesOfJoined hL1 with rfl | hmem
    · exact (by decide)
    · simp only [List.mem_map] at hmem
      obtain ⟨l2, hl2, rfl⟩ := hmem
      obtain ⟨m, hmmem, rfl⟩ := hl2
      unfold interfaceMethodLine
      simp only [String.data_append]
      intro hmem2
      simp only [List.mem_append] at hmem2
      rcases hmem2 with (h1 | h2) | h3
      · exact absurd h1 (by decide)
      · exact (hm m hmmem).1 h2
      · exact absurd h3 (by decide)
  · simp only [List.mem_cons, List.not_mem_nil, or_false] at hB
    rcases hB with rfl | rfl | rfl | rfl | rfl | rfl | rfl | rfl | rfl | rfl | rfl
    · exact (by decide)
    · exact (by decide)
    · exact hclsHeader
    · exact (by decide)
    · exact (by decide)
    · exact (by decide)
    · exact (by decide)
    · exact hparam
    · exact (by decide)
    · exact (by decide)
    · exact (by decide)
  · rcases mem_linesOfJoined hL2 with rfl | hmem
    · exact (by decide)
    · simp only [List.mem_map, List.mem_flatMap] at hmem
      obtain ⟨l2, ⟨m, hmmem, hl2⟩, rfl⟩ := hmem
      simp only [guardMethodLines, List.mem_cons, List.not_mem_nil, or_false] at hl2
      rcases hl2 with rfl | rfl | rfl
      · simp only [String.data_append]
        intro hmem2
        simp only [List.mem_append] at hmem2
        rcases hmem2 with (h1 | h2) | h3
        · exact absurd h1 (by decide)
        · exact (hm m hmmem).1 h2
        · exact absurd h3 (by decide)
      · simp only [String.data_append]
        intro hmem2
        simp only [List.mem_append] at hmem2
        rcases hmem2 with ((h1 | h2) | h3) | h4
        · exact absurd h1 (by decide)
        · exact absurd h2 (by decide)
        · exact nl_notMem_guardBodyReturn (hm m hmmem).2.1 (hm m hmmem).2.2 h3
        · exact absurd h4 (by decide)
      · exact (by decide)
  · simp only [List.mem_cons, List.not_mem_nil, or_false] at hC
    rcases hC with rfl | rfl
    · exact (by decide)
    · exact (by decide)

/-- Claim C6: splitting a successful invocation's output text into lines, the
lines opening an exported declaration are exactly two: first the header of
one interface declaration named `<ClassName>Like`, then the header of one
class declaration named `<ClassName>Guard` implementing `<ClassName>Like`.
Both names are derived from the located class's name by string concatenation
alone (no collision detection).  The hypotheses only require the class name
and the parsed method texts to be free of newline characters, making the
line decomposition faithful. -/
theorem C6_one_interface_then_one_class (outFileName : String) (cls : TopLevelNode)
    (hcn : '\n' ∉ (classNameOf cls).data)
    (hm : ∀ meta ∈ parseMethodDeclarationMetadataList cls.members,
      '\n' ∉ meta.declarationText.data ∧ '\n' ∉ meta.name.data ∧
      ∀ a ∈ meta.args, '\n' ∉ a.name.data) :
    (splitLines (generateOutputFromClassSource outFileName cls).text.data).filter
        exportPred =
      [(interfaceHeaderLine (classNameOf cls)).data,
       (classHeaderLine (classNameOf cls)).data] := by
  rw [output_data_eq_joinLines,
    splitLines_joinLines (by unfold outputLineList; simp)
      (nl_notMem_outputLineList cls hcn hm),
    filter_export_outputLineList]

/-- Witness for C6 at a concrete class with one method. -/
theorem C6_one_interface_then_one_class_witness :
    (splitLines (generateOutputFromClassSource "" fooClassWithMethodNode).text.data).filter
        exportPred =
      [(interfaceHeaderLine "Foo").data, (classHeaderLine "Foo").data] :=
  C6_one_interface_then_one_class "" fooClassWithMethodNode (by decide) (by decide)

end ApiGuard
